import Mathlib

/-!
# Verification of the cursorRegister account store, backup and refresh workflow

Shallow embedding of the relevant parts of the cursorRegister repository:

* `src/db.py` — class `NeonDB`: the accounts table API (`add_account`,
  `get_account_by_email`, `update_account`), flat-file import/export
  (`import_from_csv`, `export_to_csv`), the generic `select` query builder,
  connection-pool plumbing (`__init__`, `get_connection`, `execute_query`,
  `execute_many`).
* `src/tab/manageTab.py` — class `ManageTab`: `extract_user_id_from_jwt`,
  the field derivations of `get_trial_usage`, and the batch loop of
  `update_account_info`.
* `src/tab/registerTab.py` — class `RegisterTab`: `backup_account`.

Machine integers do not occur; Python strings are modelled as `String` or as
their character lists, Python `dict`s built by successive assignment as
key/value pair lists read with a last-binding-wins lookup, timestamps as `Nat`
instants, and raised exceptions as `Except` error values.
-/

namespace CursorRegister

/-- Python truthiness of a string: non-empty strings are truthy. -/
def strTruthy (s : String) : Bool := s != ""

/-- Python `str.split(sep)` for a one-character separator, on the character
list of the string.  `splitCharList c [] = [[]]`, matching Python where
`''.split(sep) == ['']`, and the result is never empty. -/
def splitCharList (c : Char) : List Char → List (List Char)
  | [] => [[]]
  | a :: rest =>
    match splitCharList c rest with
    | [] => [[]]
    | h :: t => if a = c then [] :: h :: t else (a :: h) :: t

theorem splitCharList_ne_nil (c : Char) (l : List Char) : splitCharList c l ≠ [] := by
  cases l with
  | nil => simp [splitCharList]
  | cons a rest =>
    simp only [splitCharList]
    cases splitCharList c rest with
    | nil => simp
    | cons h t =>
      by_cases hac : a = c <;> simp [hac]

theorem splitCharList_no_sep (c : Char) (l : List Char) (h : c ∉ l) :
    splitCharList c l = [l] := by
  induction l with
  | nil => rfl
  | cons a rest ih =>
    have ha : a ≠ c := fun hc => h (hc ▸ List.mem_cons_self a rest)
    have hrest : c ∉ rest := fun hc => h (List.mem_cons_of_mem a hc)
    simp [splitCharList, ih hrest, ha]

theorem splitCharList_append_sep (c : Char) (l r : List Char) (h : c ∉ l) :
    splitCharList c (l ++ c :: r) = l :: splitCharList c r := by
  induction l with
  | nil =>
    simp only [List.nil_append, splitCharList]
    cases hr : splitCharList c r with
    | nil => exact absurd hr (splitCharList_ne_nil c r)
    | cons a t => simp
  | cons a rest ih =>
    have ha : a ≠ c := fun hc => h (hc ▸ List.mem_cons_self a rest)
    have hrest : c ∉ rest := fun hc => h (List.mem_cons_of_mem a hc)
    have ih' := ih hrest
    cases hr : splitCharList c r with
    | nil => exact absurd hr (splitCharList_ne_nil c r)
    | cons x t =>
      simp only [List.cons_append, splitCharList, List.append_eq, ih', hr, if_neg ha]

/-- The value a Python `dict` holds at key `k` after executing
`data[key] = value` for each pair of `rows` in order: the last binding wins. -/
def dictGet (rows : List (String × String)) (k : String) : Option String :=
  (rows.reverse.find? (fun kv => kv.1 == k)).map (fun kv => kv.2)

/-! ## The accounts table (src/db.py)

`create_accounts_table` (db.py:381-399) declares the columns id, domain,
email, password, cookies_str, api_key, moe_mail_url, quota, days_remaining,
status (default `'active'`), created_at and updated_at (both defaulting to
`CURRENT_TIMESTAMP`).  The store is the list of rows of that table; `id` is
the serial primary key. -/

/-- The eight account fields handled by import/export and `add_account`
(db.py:542-551); all are strings, an absent value being the empty string. -/
structure AccountData where
  domain : String
  email : String
  password : String
  cookies_str : String
  api_key : String
  moe_mail_url : String
  quota : String
  days_remaining : String
deriving Repr, DecidableEq

/-- One row of the `accounts` table. -/
structure AccountRow where
  id : Nat
  domain : String
  email : String
  password : String
  cookies_str : String
  api_key : String
  moe_mail_url : String
  quota : String
  days_remaining : String
  status : String
  created_at : Nat
  updated_at : Nat
deriving Repr, DecidableEq

/-- The `accounts` table contents. -/
abbrev Store := List AccountRow

/-- `NeonDB.get_account_by_email` (db.py:482-501): `SELECT ... WHERE email = %s`
with `fetch_one=True` — the first stored row with that email, `None` if absent. -/
def get_account_by_email (store : Store) (email : String) : Option AccountRow :=
  List.find? (fun r => r.email == email) store

/-- The row inserted by `NeonDB.add_account` (db.py:413-444): the serial key
assigns the next id, `updated_at` is set by the client to `datetime.now()`
(db.py:439), and `status`/`created_at` come from the column defaults
(db.py:395-396).  The database clock and the client clock are modelled as the
single instant `now`. -/
def mkAccountRow (id : Nat) (d : AccountData) (now : Nat) : AccountRow :=
  { id := id
    domain := d.domain
    email := d.email
    password := d.password
    cookies_str := d.cookies_str
    api_key := d.api_key
    moe_mail_url := d.moe_mail_url
    quota := d.quota
    days_remaining := d.days_remaining
    status := "active"
    created_at := now
    updated_at := now }

/-- `NeonDB.add_account` (db.py:413-444).  The required-field check
(db.py:433-436) tests key presence in the dict; an `AccountData` always
carries all eight keys, so the check passes, and a successful `INSERT`
returns the new serial id. -/
def add_account (now : Nat) (d : AccountData) (store : Store) : Nat × Store :=
  (store.length + 1, store ++ [mkAccountRow (store.length + 1) d now])

/-- A partial update dict as passed to `NeonDB.update_account` (db.py:620-663):
only the present keys produce `key = %s` SET clauses. -/
structure UpdateData where
  domain : Option String := none
  email : Option String := none
  password : Option String := none
  cookies_str : Option String := none
  api_key : Option String := none
  moe_mail_url : Option String := none
  quota : Option String := none
  days_remaining : Option String := none
  status : Option String := none
deriving Repr, DecidableEq

/-- The effect of the generated `UPDATE accounts SET ...` statement on one row:
each present key overwrites its column, and `updated_at` is always overwritten
because `update_account` adds `update_data['updated_at'] = datetime.now()`
before building the SET clauses (db.py:642). -/
def applyUpdate (u : UpdateData) (now : Nat) (r : AccountRow) : AccountRow :=
  { r with
    domain := u.domain.getD r.domain
    email := u.email.getD r.email
    password := u.password.getD r.password
    cookies_str := u.cookies_str.getD r.cookies_str
    api_key := u.api_key.getD r.api_key
    moe_mail_url := u.moe_mail_url.getD r.moe_mail_url
    quota := u.quota.getD r.quota
    days_remaining := u.days_remaining.getD r.days_remaining
    status := u.status.getD r.status
    updated_at := now }

/-- `NeonDB.update_account` (db.py:620-663): runs
`UPDATE accounts SET ... , updated_at = %s WHERE id = %s` and returns
`cur.rowcount > 0`. -/
def update_account (now : Nat) (accountId : Nat) (u : UpdateData) (store : Store) :
    Bool × Store :=
  (store.any (fun r => r.id == accountId),
   store.map (fun r => if r.id == accountId then applyUpdate u now r else r))

/-- The update dict built by `import_from_csv` (db.py:542-564): all eight
account fields, status untouched. -/
def toUpdate (d : AccountData) : UpdateData :=
  { domain := some d.domain
    email := some d.email
    password := some d.password
    cookies_str := some d.cookies_str
    api_key := some d.api_key
    moe_mail_url := some d.moe_mail_url
    quota := some d.quota
    days_remaining := some d.days_remaining }

/-- The `account_data` dict built by `import_from_csv` (db.py:542-551) from the
parsed file: each field defaults to the empty string when its key is absent. -/
def accountDataOfRows (rows : List (String × String)) : AccountData :=
  { domain := (dictGet rows "DOMAIN").getD ""
    email := (dictGet rows "EMAIL").getD ""
    password := (dictGet rows "PASSWORD").getD ""
    cookies_str := (dictGet rows "COOKIES_STR").getD ""
    api_key := (dictGet rows "API_KEY").getD ""
    moe_mail_url := (dictGet rows "MOE_MAIL_URL").getD ""
    quota := (dictGet rows "QUOTA").getD ""
    days_remaining := (dictGet rows "DAYS").getD "" }

/-- `NeonDB.import_from_csv` (db.py:503-578) after the file has been read:
`rows` are the parsed `(variable, value)` pairs (the CSV branch, db.py:531-537,
collects them into the dict `data` in file order).  The function rejects a
missing or empty email or password (db.py:554-556), otherwise upserts by
email: update when `get_account_by_email` finds a row (db.py:561-564), insert
via `add_account` otherwise (db.py:565-573).  File I/O and driver errors are
outside the pure model, so the insert branch reports success. -/
def import_from_csv (now : Nat) (rows : List (String × String)) (store : Store) :
    Bool × Store :=
  let d := accountDataOfRows rows
  if d.email == "" || d.password == "" then (false, store)
  else
    match get_account_by_email store d.email with
    | some r => update_account now r.id (toUpdate d) store
    | none => (true, (add_account now d store).2)

/-- The key/value rows `export_to_csv` writes for one account (db.py:600-614):
domain, email and password are always written; the five optional fields only
when truthy. -/
def exportRows (a : AccountRow) : List (String × String) :=
  [("DOMAIN", a.domain), ("EMAIL", a.email), ("PASSWORD", a.password)]
    ++ (if strTruthy a.cookies_str then [("COOKIES_STR", a.cookies_str)] else [])
    ++ (if strTruthy a.api_key then [("API_KEY", a.api_key)] else [])
    ++ (if strTruthy a.moe_mail_url then [("MOE_MAIL_URL", a.moe_mail_url)] else [])
    ++ (if strTruthy a.quota then [("QUOTA", a.quota)] else [])
    ++ (if strTruthy a.days_remaining then [("DAYS", a.days_remaining)] else [])

/-- Insertion step of sorting by `created_at DESC`. -/
def insertByCreatedDesc (a : AccountRow) : List AccountRow → List AccountRow
  | [] => [a]
  | b :: l => if b.created_at ≤ a.created_at then a :: b :: l else b :: insertByCreatedDesc a l

/-- `NeonDB.get_account_list` (db.py:446-480): all rows ordered by
`created_at DESC`. -/
def get_account_list (store : Store) : List AccountRow :=
  store.foldr insertByCreatedDesc []

/-- `NeonDB.export_to_csv` (db.py:580-618): returns `False` (here `none`) on an
empty account list, otherwise writes the header line `variable,value` followed
by the key/value rows of every account in list order.  The file contents are
the written rows; Python's `csv.writer`/`csv.reader` are inverse on rows, so
the file is modelled as this row list. -/
def export_to_csv (store : Store) : Option (List (String × String)) :=
  let accounts := get_account_list store
  if accounts.isEmpty then none else some (accounts.flatMap exportRows)

/-- The eight data fields of a stored row, as `import_from_csv` would have to
reproduce them. -/
def dataOfRow (a : AccountRow) : AccountData :=
  { domain := a.domain
    email := a.email
    password := a.password
    cookies_str := a.cookies_str
    api_key := a.api_key
    moe_mail_url := a.moe_mail_url
    quota := a.quota
    days_remaining := a.days_remaining }

/-- Row `r` carries exactly the account fields of `a`: populated fields agree
and fields empty at export agree on the empty-string default. -/
def sameAccountFields (r a : AccountRow) : Prop :=
  r.domain = a.domain ∧ r.email = a.email ∧ r.password = a.password ∧
  r.cookies_str = a.cookies_str ∧ r.api_key = a.api_key ∧
  r.moe_mail_url = a.moe_mail_url ∧ r.quota = a.quota ∧
  r.days_remaining = a.days_remaining

instance (r a : AccountRow) : Decidable (sameAccountFields r a) := by
  unfold sameAccountFields; infer_instance

/-- Parsing the rows exported for one account recovers exactly that account's
data: written fields are read back and omitted (empty) fields default back to
the empty string. -/
theorem accountDataOfRows_exportRows (a : AccountRow) :
    accountDataOfRows (exportRows a) = dataOfRow a := by
  by_cases h1 : a.cookies_str = "" <;>
    by_cases h2 : a.api_key = "" <;>
      by_cases h3 : a.moe_mail_url = "" <;>
        by_cases h4 : a.quota = "" <;>
          by_cases h5 : a.days_remaining = "" <;>
            simp [exportRows, accountDataOfRows, dataOfRow, dictGet, strTruthy,
              h1, h2, h3, h4, h5, List.find?]

/-- Claim C1 as stated: the flat file written by `export_to_csv`, imported by
`import_from_csv` (into a fresh store, so that only the file contents matter),
reproduces every populated field of every exported account. -/
def roundTripReproducesAll (store : Store) (now : Nat) : Prop :=
  ∀ rows, export_to_csv store = some rows →
    ∀ a ∈ store, ∃ r ∈ (import_from_csv now rows []).2, sameAccountFields r a

/-- **C1, counterexample.**  With two stored accounts the exported file holds
both accounts' key/value rows, but `import_from_csv` collapses the whole file
into one dict (db.py:535-537, later bindings overwrite earlier ones) and
performs a single upsert, so the first exported account is not reproduced. -/
theorem export_import_not_roundtrip :
    ¬ roundTripReproducesAll
      [mkAccountRow 1 ⟨"d1.com", "a1@x.com", "p1", "", "", "", "", ""⟩ 2,
       mkAccountRow 2 ⟨"d2.com", "a2@x.com", "p2", "", "", "", "", ""⟩ 1] 5 := by
  intro h
  have h2 := h
    (exportRows (mkAccountRow 1 ⟨"d1.com", "a1@x.com", "p1", "", "", "", "", ""⟩ 2)
      ++ exportRows (mkAccountRow 2 ⟨"d2.com", "a2@x.com", "p2", "", "", "", "", ""⟩ 1))
    (by decide)
    (mkAccountRow 1 ⟨"d1.com", "a1@x.com", "p1", "", "", "", "", ""⟩ 2)
    (by decide)
  exact absurd h2 (by decide)

/-- **C1, amended.**  For a store holding exactly one account (with email and
password populated), exporting and re-importing reproduces every populated
field of that account, and fields empty at export are omitted from the file
and default to the empty string on import.  (With several stored accounts,
the import collapses the file into a single upsert built from the last
binding of each key, so only the last exported account is reconstructed —
see the counterexample.) -/
theorem export_import_roundtrip_single (a : AccountRow) (now : Nat)
    (he : a.email ≠ "") (hp : a.password ≠ "") :
    ∃ rows, export_to_csv [a] = some rows ∧
      ∃ r, import_from_csv now rows [] = (true, [r]) ∧ sameAccountFields r a := by
  refine ⟨exportRows a, ?_, mkAccountRow 1 (dataOfRow a) now, ?_, ?_⟩
  · simp [export_to_csv, get_account_list, insertByCreatedDesc]
  · simp [import_from_csv, accountDataOfRows_exportRows a, dataOfRow, he, hp,
      get_account_by_email, add_account]
  · simp [mkAccountRow, dataOfRow, sameAccountFields]

/-- Witness for the amended C1 theorem at a concrete account. -/
theorem export_import_roundtrip_single_witness :
    ∃ rows,
      export_to_csv
        [mkAccountRow 1 ⟨"example.com", "a@example.com", "p", "ck", "", "", "10 / 100", "5"⟩ 3]
        = some rows ∧
      ∃ r, import_from_csv 7 rows [] = (true, [r]) ∧
        sameAccountFields r
          (mkAccountRow 1 ⟨"example.com", "a@example.com", "p", "ck", "", "", "10 / 100", "5"⟩ 3) :=
  export_import_roundtrip_single
    (mkAccountRow 1 ⟨"example.com", "a@example.com", "p", "ck", "", "", "10 / 100", "5"⟩ 3)
    7 (by decide) (by decide)

/-- **C6.**  `import_from_csv` returns failure and leaves the store untouched
when the parsed email or password is missing/empty; with both present it
updates the row found by email, and inserts a new row when no row has that
email. -/
theorem import_from_csv_upsert (now : Nat) (rows : List (String × String))
    (store : Store) :
    ((accountDataOfRows rows).email = "" ∨ (accountDataOfRows rows).password = "" →
      import_from_csv now rows store = (false, store))
    ∧ ((accountDataOfRows rows).email ≠ "" → (accountDataOfRows rows).password ≠ "" →
        (∀ r, get_account_by_email store (accountDataOfRows rows).email = some r →
          import_from_csv now rows store
            = update_account now r.id (toUpdate (accountDataOfRows rows)) store)
        ∧ (get_account_by_email store (accountDataOfRows rows).email = none →
          import_from_csv now rows store
            = (true, store ++ [mkAccountRow (store.length + 1) (accountDataOfRows rows) now]))) := by
  constructor
  · intro h
    have hc : ((accountDataOfRows rows).email == ""
        || (accountDataOfRows rows).password == "") = true := by
      rcases h with h | h <;> simp [h]
    simp [import_from_csv, hc]
  · intro he hp
    have hc : ((accountDataOfRows rows).email == ""
        || (accountDataOfRows rows).password == "") = false := by
      simp [he, hp]
    constructor
    · intro r hr
      simp [import_from_csv, hc, hr]
    · intro hr
      simp [import_from_csv, hc, hr, add_account]

/-- Witness for C6: a file missing the password is rejected without touching
the store, and a complete file inserts into an empty store. -/
theorem import_from_csv_upsert_witness :
    import_from_csv 5 [("EMAIL", "a@example.com")] [] = (false, [])
    ∧ import_from_csv 5 [("EMAIL", "a@example.com"), ("PASSWORD", "p")] []
        = (true, [] ++ [mkAccountRow 1 (accountDataOfRows
            [("EMAIL", "a@example.com"), ("PASSWORD", "p")]) 5]) :=
  ⟨(import_from_csv_upsert 5 [("EMAIL", "a@example.com")] []).1 (Or.inr (by decide)),
   ((import_from_csv_upsert 5 [("EMAIL", "a@example.com"), ("PASSWORD", "p")] []).2
      (by decide) (by decide)).2 (by decide)⟩

/-- **C8.**  `add_account` stamps `updated_at` with the creation instant, and
`update_account` stamps `updated_at` with the update instant, so after an
update at a strictly later time the row read back has
`created_at < updated_at`. -/
theorem update_refreshes_updated_at (t t' : Nat) (d : AccountData) (u : UpdateData)
    (store : Store) (ht : t < t') :
    ((add_account t d store).2.getLast? = some (mkAccountRow (store.length + 1) d t))
    ∧ (mkAccountRow (store.length + 1) d t).updated_at = t
    ∧ ((update_account t' (store.length + 1) u (add_account t d store).2).2.getLast?
        = some (applyUpdate u t' (mkAccountRow (store.length + 1) d t)))
    ∧ (applyUpdate u t' (mkAccountRow (store.length + 1) d t)).updated_at = t'
    ∧ (applyUpdate u t' (mkAccountRow (store.length + 1) d t)).created_at
        < (applyUpdate u t' (mkAccountRow (store.length + 1) d t)).updated_at := by
  refine ⟨?_, rfl, ?_, rfl, ?_⟩
  · simp [add_account]
  · simp [add_account, update_account, mkAccountRow]
  · simpa [applyUpdate, mkAccountRow] using ht

/-- Witness for C8 at concrete instants 1 < 2 (the §8 scenario: update with
quota `"5 / 100"`). -/
theorem update_refreshes_updated_at_witness :
    (applyUpdate { quota := some "5 / 100" } 2
        (mkAccountRow 1 ⟨"example.com", "a@example.com", "p", "", "", "", "", ""⟩ 1)).created_at
      < (applyUpdate { quota := some "5 / 100" } 2
        (mkAccountRow 1 ⟨"example.com", "a@example.com", "p", "", "", "", "", ""⟩ 1)).updated_at :=
  (update_refreshes_updated_at 1 2 ⟨"example.com", "a@example.com", "p", "", "", "", "", ""⟩
    { quota := some "5 / 100" } [] (by decide)).2.2.2.2

/-! ## `NeonDB.select` (db.py:271-320) -/

/-- Python truthiness of an optional integer argument: `None` and `0` are
falsy, every other integer is truthy. -/
def intTruthy : Option Int → Bool
  | none => false
  | some n => n != 0

/-- Python truthiness of an optional string argument: `None` and `''` are
falsy. -/
def optStrTruthy : Option String → Bool
  | none => false
  | some s => strTruthy s

/-- The SQL text `NeonDB.select` builds (db.py:292-307): the WHERE, ORDER BY,
LIMIT and OFFSET clauses are appended only when the corresponding argument is
truthy (`if condition:`, `if order_by:`, `if limit:`, `if offset:`). -/
def buildSelectQuery (table columns : String) (condition orderBy : Option String)
    (limit offArg : Option Int) : String :=
  let q := "SELECT " ++ columns ++ " FROM " ++ table
  let q := if optStrTruthy condition then q ++ " WHERE " ++ condition.getD "" else q
  let q := if optStrTruthy orderBy then q ++ " ORDER BY " ++ orderBy.getD "" else q
  let q := if intTruthy limit then q ++ " LIMIT " ++ toString (limit.getD 0) else q
  if intTruthy offArg then q ++ " OFFSET " ++ toString (offArg.getD 0) else q

/-- The rows the database returns for the generated query, given the rows
`base` the query would return without LIMIT/OFFSET clauses: a present
`OFFSET n` clause skips `n` rows, a present `LIMIT n` clause caps the result
at `n` rows, and an omitted clause leaves the rows unchanged. -/
def rowsWithLimitOffset (base : List AccountRow) (limit offArg : Option Int) :
    List AccountRow :=
  let afterOff := if intTruthy offArg then base.drop (offArg.getD 0).toNat else base
  if intTruthy limit then afterOff.take (limit.getD 0).toNat else afterOff

/-- **C10.**  `select` tests `limit` and `offset` for truthiness, so passing 0
omits the clause exactly as passing `None` does: the generated query text and
the returned rows coincide with those of the unbounded call — in particular
`limit=0` returns all rows rather than zero rows. -/
theorem select_zero_limit_offset_unbounded (table columns : String)
    (condition orderBy : Option String) (limit offArg : Option Int)
    (base : List AccountRow) :
    (buildSelectQuery table columns condition orderBy (some 0) offArg
      = buildSelectQuery table columns condition orderBy none offArg)
    ∧ (buildSelectQuery table columns condition orderBy limit (some 0)
      = buildSelectQuery table columns condition orderBy limit none)
    ∧ rowsWithLimitOffset base (some 0) offArg = rowsWithLimitOffset base none offArg
    ∧ rowsWithLimitOffset base limit (some 0) = rowsWithLimitOffset base limit none
    ∧ rowsWithLimitOffset base (some 0) none = base := by
  refine ⟨?_, ?_, ?_, ?_, ?_⟩ <;>
    simp [buildSelectQuery, rowsWithLimitOffset, intTruthy]

/-! ## Connection-pool usage (db.py)

The pool is abstracted to the number of free pooled connections;
`getconn`/`putconn` move a connection out of and back into the pool. -/

/-- The connection pool: its count of free connections. -/
structure Pool where
  free : Nat
deriving Repr, DecidableEq

/-- `NeonDB.get_connection` (db.py:55-67): a single `self.pool.getconn()`
call; on pool exhaustion the exception is logged and re-raised — there is no
retry loop here. -/
def get_connection (p : Pool) : Except String Pool :=
  if p.free = 0 then .error "connection pool exhausted" else .ok ⟨p.free - 1⟩

/-- `NeonDB.release_connection` (db.py:69-76): `self.pool.putconn(conn)`. -/
def release_connection (p : Pool) : Pool := ⟨p.free + 1⟩

/-- `NeonDB.execute_query` (db.py:83-125): acquires a connection, executes the
query (commit on success, rollback and re-raise on exception), and in the
`finally` block closes the cursor and releases the connection whenever one was
acquired. -/
def execute_query (p : Pool) (queryFails : Bool) : Except String Unit × Pool :=
  match get_connection p with
  | .error e => (.error e, p)
  | .ok p1 =>
    if queryFails then (.error "执行查询失败", release_connection p1)
    else (.ok (), release_connection p1)

/-- `NeonDB.execute_many` (db.py:127-158): same acquire/`finally`-release
structure as `execute_query`, with `executemany` in the middle. -/
def execute_many (p : Pool) (queryFails : Bool) : Except String Unit × Pool :=
  match get_connection p with
  | .error e => (.error e, p)
  | .ok p1 =>
    if queryFails then (.error "执行批量操作失败", release_connection p1)
    else (.ok (), release_connection p1)

/-- The connection usage of `NeonDB.update_account` (db.py:640-663): the
connection is acquired with `get_connection` and used as `with conn:` — in
psycopg2 that context manager only brackets a transaction (commit on normal
exit, rollback on exception); it does not return the connection to the pool —
and no code path calls `release_connection`/`putconn`.  Exceptions are caught
and `False` is returned (db.py:661-663). -/
def update_account_pool (p : Pool) (execFails : Bool) : Bool × Pool :=
  match get_connection p with
  | .error _ => (false, p)
  | .ok p1 => if execFails then (false, p1) else (true, p1)

/-- **C2/C3 context — C3.**  `execute_query` and `execute_many` restore the
pool on every exit path (success, query exception, failed acquisition), but
`update_account` returns with one connection fewer in the pool on both its
success and its failure path: it leaks the acquired connection. -/
theorem update_account_leaks_connection (p : Pool) (fails : Bool) :
    (execute_query p fails).2 = p
    ∧ (execute_many p fails).2 = p
    ∧ (0 < p.free → (update_account_pool p fails).2.free = p.free - 1) := by
  obtain ⟨n⟩ := p
  refine ⟨?_, ?_, ?_⟩ <;>
    cases fails <;>
      cases n <;>
        simp [execute_query, execute_many, update_account_pool, get_connection,
          release_connection]

/-- Witness for C3 at a pool with five free connections: the query paths
restore the pool, `update_account` comes back one connection short. -/
theorem update_account_leaks_connection_witness :
    (execute_query ⟨5⟩ false).2 = ⟨5⟩
    ∧ (execute_many ⟨5⟩ true).2 = ⟨5⟩
    ∧ (update_account_pool ⟨5⟩ false).2.free = 4 :=
  ⟨(update_account_leaks_connection ⟨5⟩ false).1,
   (update_account_leaks_connection ⟨5⟩ true).2.1,
   (update_account_leaks_connection ⟨5⟩ false).2.2 (by decide)⟩

/-! ## Pool creation and acquisition retries (db.py:15-67) -/

/-- The trace of a retried operation: whether it eventually succeeded, how
many attempts were made, and how many fixed 1-second backoff sleeps were
taken between attempts. -/
structure RetryTrace where
  success : Bool
  attempts : Nat
  sleeps : Nat
deriving Repr, DecidableEq

/-- The retry loop of `NeonDB.__init__` (db.py:37-53), driven by an outcome
oracle (`outcome i` = does the i-th pool-creation attempt succeed): while
`retry_count < max_retries` an attempt is made; on failure the count is
incremented and, if attempts remain, `time.sleep(1)` is taken; after the loop
the last error is raised.  `remaining` is `max_retries - retry_count`. -/
def initPoolGo (outcome : Nat → Bool) (maxRetries : Nat) : Nat → Nat → RetryTrace
  | _, 0 => ⟨false, 0, 0⟩
  | i, remaining + 1 =>
    if outcome i then ⟨true, 1, 0⟩
    else
      let rest := initPoolGo outcome maxRetries (i + 1) remaining
      ⟨rest.success, rest.attempts + 1,
        rest.sleeps + if i + 1 < maxRetries then 1 else 0⟩

/-- Pool creation in `NeonDB.__init__` with the configured `max_retries`. -/
def init_pool (outcome : Nat → Bool) (maxRetries : Nat) : RetryTrace :=
  initPoolGo outcome maxRetries 0 maxRetries

/-- `NeonDB.get_connection` (db.py:55-67) against the same oracle: exactly one
`getconn` attempt is made, with no sleep; a failure is re-raised to the
caller immediately. -/
def get_connection_trace (outcome : Nat → Bool) : RetryTrace :=
  ⟨outcome 0, 1, 0⟩

theorem initPoolGo_all_fail (outcome : Nat → Bool) (mr i rem : Nat)
    (hrem : i + rem = mr) (h : ∀ j, j < mr → outcome j = false) :
    initPoolGo outcome mr i rem = ⟨false, rem, rem - 1⟩ := by
  induction rem generalizing i with
  | zero => rfl
  | succ rem ih =>
    have hi : outcome i = false := h i (by omega)
    have ihr := ih (i + 1) (by omega)
    simp only [initPoolGo, hi, Bool.false_eq_true, if_false, ihr]
    have : (i + 1 < mr) = (0 < rem) := by
      simp only [eq_iff_iff]; omega
    rcases Nat.eq_zero_or_pos rem with hr | hr
    · simp [hr, this]
    · simp [hr, this]
      omega

theorem initPoolGo_first_success (outcome : Nat → Bool) (mr i rem k : Nat)
    (hik : i ≤ k) (hk : k < mr) (hrem : i + rem = mr)
    (hfail : ∀ j, j < k → outcome j = false) (hsucc : outcome k = true) :
    initPoolGo outcome mr i rem = ⟨true, k - i + 1, k - i⟩ := by
  induction rem generalizing i with
  | zero => omega
  | succ rem ih =>
    by_cases hi : i = k
    · subst hi
      simp [initPoolGo, hsucc]
    · have hlt : i < k := by omega
      have hif : outcome i = false := hfail i hlt
      have ihr := ih (i + 1) (by omega) (by omega)
      simp only [initPoolGo, hif, Bool.false_eq_true, if_false, ihr]
      have hsl : i + 1 < mr := by omega
      simp only [hsl, if_true]
      refine congrArg₂ (RetryTrace.mk true) (by omega) (by omega)

/-- **C9, amended.**  Initial pool creation is retried up to `max_retries`
attempts with a fixed 1-second backoff between attempts, succeeding as soon as
an attempt succeeds and raising the last error only once the bound is
exhausted; connection acquisition, by contrast, is not retried —
`get_connection` makes a single `getconn` attempt and surfaces a pool-
exhaustion error to the caller immediately. -/
theorem init_pool_retries_get_connection_does_not (outcome : Nat → Bool)
    (maxRetries : Nat) :
    ((∀ j, j < maxRetries → outcome j = false) →
      init_pool outcome maxRetries = ⟨false, maxRetries, maxRetries - 1⟩)
    ∧ (∀ k, k < maxRetries → (∀ j, j < k → outcome j = false) → outcome k = true →
      init_pool outcome maxRetries = ⟨true, k + 1, k⟩)
    ∧ get_connection_trace outcome = ⟨outcome 0, 1, 0⟩ := by
  refine ⟨?_, ?_, rfl⟩
  · intro h
    exact initPoolGo_all_fail outcome maxRetries 0 maxRetries (by omega) h
  · intro k hk hfail hsucc
    simpa using initPoolGo_first_success outcome maxRetries 0 maxRetries k
      (Nat.zero_le k) hk (by omega) hfail hsucc

/-- **C9, counterexample.**  With the default `max_retries = 3` and
persistently failing attempts, pool creation is retried to the bound (3
attempts, 2 backoff sleeps) as the claim states, but an acquisition failure
in `get_connection` surfaces after exactly one attempt — not after the
configured 3 — refuting the claim for the acquisition half. -/
theorem get_connection_not_retried :
    init_pool (fun _ => false) 3 = ⟨false, 3, 2⟩
    ∧ (get_connection_trace (fun _ => false)).attempts = 1
    ∧ ((get_connection_trace (fun _ => false)).attempts ≠ 3) := by
  refine ⟨rfl, rfl, by decide⟩

/-- Witness for the amended C9 theorem: with attempts failing until the
second try succeeds, creation stops after 2 attempts and 1 sleep. -/
theorem init_pool_retries_witness :
    init_pool (fun i => decide (i = 1)) 3 = ⟨true, 2, 1⟩
    ∧ get_connection_trace (fun i => decide (i = 1)) = ⟨false, 1, 0⟩ :=
  ⟨(init_pool_retries_get_connection_does_not (fun i => decide (i = 1)) 3).2.1 1
      (by decide) (by decide) (by decide),
   (init_pool_retries_get_connection_does_not (fun i => decide (i = 1)) 3).2.2⟩

/-! ## `RegisterTab.backup_account` (registerTab.py:197-267) -/

/-- The methods class `NeonDB` defines (src/db.py:12-663, in source order). -/
def NeonDB_methods : List String :=
  ["__init__", "get_connection", "release_connection", "close_all",
   "execute_query", "execute_many", "create_table", "insert", "update",
   "delete", "select", "table_exists", "get_columns",
   "create_accounts_table", "init_database", "add_account",
   "get_account_list", "get_account_by_email", "import_from_csv",
   "export_to_csv", "update_account"]

/-- The dynamic attribute call `self.db.backup_account(...)`
(registerTab.py:244-249): Python resolves the attribute against class
`NeonDB`, and an absent attribute raises `AttributeError`. -/
def callNeonDBBackupAccount : Except String Unit :=
  if "backup_account" ∈ NeonDB_methods then .ok ()
  else .error "AttributeError: NeonDB object has no attribute backup_account"

/-- The backup directory: file path ↦ key/value rows. -/
abbrev BackupFiles := List (String × List (String × String))

/-- The worker of `RegisterTab.backup_account` (registerTab.py:198-256): read
`EMAIL` from the environment, load the account row, write the timestamped
flat file containing the truthy fields (registerTab.py:237-241), then call
`self.db.backup_account` to append the durable backup record
(registerTab.py:244-249).  Returns the success path or the caught exception,
together with the resulting backup directory. -/
def backup_account (envEmail : String) (store : Store) (files : BackupFiles)
    (timestamp : String) : Except String String × BackupFiles :=
  if envEmail == "" then (.error "未找到账号信息，请先注册或更新账号", files)
  else
    match get_account_by_email store envEmail with
    | none => (.error "未找到账号信息", files)
    | some a =>
      let backupData := [("DOMAIN", a.domain), ("EMAIL", a.email),
        ("PASSWORD", a.password), ("COOKIES_STR", a.cookies_str),
        ("API_KEY", a.api_key), ("MOE_MAIL_URL", a.moe_mail_url),
        ("QUOTA", a.quota), ("DAYS", a.days_remaining)]
      let path := "env_backups/cursor_account_" ++ timestamp ++ ".csv"
      let files1 := files ++ [(path, backupData.filter (fun kv => strTruthy kv.2))]
      match callNeonDBBackupAccount with
      | .error e => (.error e, files1)
      | .ok _ => (.ok path, files1)

/-- **C2.**  For every invocation on an account present in the store, the
manual backup writes the timestamped flat file and leaves every existing
backup file unchanged — but then raises `AttributeError`, because class
`NeonDB` defines no `backup_account` method: the durable backup record is
never appended and the operation reports failure, never success. -/
theorem backup_account_raises_attribute_error (envEmail : String) (store : Store)
    (files : BackupFiles) (ts : String) (a : AccountRow) (hne : envEmail ≠ "")
    (hfind : get_account_by_email store envEmail = some a) :
    ∃ rows, backup_account envEmail store files ts
      = (.error "AttributeError: NeonDB object has no attribute backup_account",
         files ++ [("env_backups/cursor_account_" ++ ts ++ ".csv", rows)]) := by
  have hb : (envEmail == "") = false := by simp [hne]
  refine ⟨[("DOMAIN", a.domain), ("EMAIL", a.email), ("PASSWORD", a.password),
    ("COOKIES_STR", a.cookies_str), ("API_KEY", a.api_key),
    ("MOE_MAIL_URL", a.moe_mail_url), ("QUOTA", a.quota),
    ("DAYS", a.days_remaining)].filter (fun kv => strTruthy kv.2), ?_⟩
  simp [backup_account, hb, hfind, callNeonDBBackupAccount, NeonDB_methods]

/-- Witness for C2 at a concrete store and environment. -/
theorem backup_account_raises_attribute_error_witness :
    ∃ rows, backup_account "a@example.com"
        [mkAccountRow 1 ⟨"example.com", "a@example.com", "p", "ck", "", "", "", ""⟩ 1]
        [] "20250101_000000"
      = (.error "AttributeError: NeonDB object has no attribute backup_account",
         [] ++ [("env_backups/cursor_account_20250101_000000.csv", rows)]) :=
  backup_account_raises_attribute_error "a@example.com"
    [mkAccountRow 1 ⟨"example.com", "a@example.com", "p", "ck", "", "", "", ""⟩ 1]
    [] "20250101_000000"
    (mkAccountRow 1 ⟨"example.com", "a@example.com", "p", "ck", "", "", "", ""⟩ 1)
    (by decide) (by decide)

/-! ## `ManageTab.update_account_info` (manageTab.py:380-472) -/

/-- The counters and per-account error messages accumulated by
`update_process` (manageTab.py:423-445). -/
structure BatchResult where
  success : Nat
  failed : Nat
  errors : List String
deriving Repr, DecidableEq

/-- The backup-file directory at file granularity: csv path ↦ parsed account
data. -/
abbrev CsvFiles := List (String × AccountData)

/-- `update_csv_file` (manageTab.py:224-252) at whole-file granularity: the
account's csv file is rewritten with the refreshed data (created if absent). -/
def writeCsv (files : CsvFiles) (path : String) (d : AccountData) : CsvFiles :=
  if files.any (fun f => f.1 == path)
  then files.map (fun f => if f.1 == path then (path, d) else f)
  else files ++ [(path, d)]

/-- Whether an `Except` result is a success. -/
def exceptOk : Except String AccountData → Bool
  | .ok _ => true
  | .error _ => false

/-- One iteration of the batch loop (manageTab.py:436-445): `upd` stands for
`update_single_account`, which either returns the refreshed data it wrote to
the account's csv file or raises; a success increments `success_count`, a
failure increments `failed_count` and appends the per-account error message,
leaving the file state untouched. -/
def batchStep (upd : String → AccountData → Except String AccountData)
    (acc : BatchResult × CsvFiles) (fa : String × AccountData) :
    BatchResult × CsvFiles :=
  match upd fa.1 fa.2 with
  | .ok newData =>
    ({ acc.1 with success := acc.1.success + 1 }, writeCsv acc.2 fa.1 newData)
  | .error e =>
    ({ acc.1 with
        failed := acc.1.failed + 1
        errors := acc.1.errors ++ ["账号 " ++ fa.2.email ++ " 更新失败: " ++ e] },
     acc.2)

/-- The batch loop of `update_process` (manageTab.py:423-445) over the
accounts selected for refresh: every account is processed in order, each
inside its own `try`/`except`. -/
def update_process (upd : String → AccountData → Except String AccountData)
    (accounts : List (String × AccountData)) (files : CsvFiles) :
    BatchResult × CsvFiles :=
  accounts.foldl (batchStep upd) (⟨0, 0, []⟩, files)

/-- The error messages of the failing accounts, in batch order. -/
def batchErrors (upd : String → AccountData → Except String AccountData)
    (accounts : List (String × AccountData)) : List String :=
  accounts.filterMap fun fa =>
    match upd fa.1 fa.2 with
    | .ok _ => none
    | .error e => some ("账号 " ++ fa.2.email ++ " 更新失败: " ++ e)

/-- The csv writes of the succeeding accounts, in batch order. -/
def batchWrites (upd : String → AccountData → Except String AccountData)
    (accounts : List (String × AccountData)) : List (String × AccountData) :=
  accounts.filterMap fun fa =>
    match upd fa.1 fa.2 with
    | .ok d => some (fa.1, d)
    | .error _ => none

theorem update_process_fold (upd : String → AccountData → Except String AccountData)
    (accounts : List (String × AccountData)) (files : CsvFiles) :
    update_process upd accounts files
      = (⟨accounts.length - (batchErrors upd accounts).length,
          (batchErrors upd accounts).length,
          batchErrors upd accounts⟩,
         (batchWrites upd accounts).foldl (fun fs pd => writeCsv fs pd.1 pd.2) files) := by
  suffices hgen : ∀ (accounts : List (String × AccountData)) (s f : Nat)
      (es : List String) (files : CsvFiles),
      accounts.foldl (batchStep upd) (⟨s, f, es⟩, files)
        = (⟨s + (accounts.length - (batchErrors upd accounts).length),
            f + (batchErrors upd accounts).length,
            es ++ batchErrors upd accounts⟩,
           (batchWrites upd accounts).foldl (fun fs pd => writeCsv fs pd.1 pd.2) files) by
    simpa [update_process] using hgen accounts 0 0 [] files
  intro accounts
  induction accounts with
  | nil => intro s f es files; simp [batchErrors, batchWrites]
  | cons a t ih =>
    intro s f es files
    have hlen : (batchErrors upd t).length ≤ t.length := by
      simpa [batchErrors] using List.length_filterMap_le _ t
    simp only [batchErrors] at hlen
    cases hu : upd a.1 a.2 with
    | ok d =>
      simp only [List.foldl_cons, batchStep, hu, batchErrors, batchWrites,
        List.filterMap_cons]
      have hih := ih (s + 1) f es (writeCsv files a.1 d)
      simp only [batchErrors, batchWrites] at hih
      rw [hih]
      refine congrArg₂ Prod.mk ?_ rfl
      rw [BatchResult.mk.injEq]
      refine ⟨?_, rfl, rfl⟩
      simp only [List.length_cons]
      omega
    | error e =>
      simp only [List.foldl_cons, batchStep, hu, batchErrors, batchWrites,
        List.filterMap_cons]
      have hih := ih s (f + 1) (es ++ ["账号 " ++ a.2.email ++ " 更新失败: " ++ e]) files
      simp only [batchErrors, batchWrites] at hih
      rw [hih]
      refine congrArg₂ Prod.mk ?_ rfl
      rw [BatchResult.mk.injEq]
      refine ⟨?_, ?_, ?_⟩
      · simp only [List.length_cons]
        omega
      · simp only [List.length_cons]
        omega
      · simp

/-- **C5.**  The batch refresh over N accounts with exactly K individual
failures processes every account (success + failed = N), reports
success = N - K and failed = K with one error message per failing account,
and the final file state is exactly the successful accounts' writes applied
in order — a failure neither aborts the batch nor rolls back or alters any
other account's successful update. -/
theorem update_process_counts (upd : String → AccountData → Except String AccountData)
    (accounts : List (String × AccountData)) (files : CsvFiles) :
    (update_process upd accounts files).1.success
        = accounts.length
          - (accounts.filter (fun fa => !exceptOk (upd fa.1 fa.2))).length
    ∧ (update_process upd accounts files).1.failed
        = (accounts.filter (fun fa => !exceptOk (upd fa.1 fa.2))).length
    ∧ (update_process upd accounts files).1.success
        + (update_process upd accounts files).1.failed = accounts.length
    ∧ (update_process upd accounts files).1.errors = batchErrors upd accounts
    ∧ (update_process upd accounts files).2
        = (batchWrites upd accounts).foldl (fun fs pd => writeCsv fs pd.1 pd.2) files := by
  have hK : (batchErrors upd accounts).length
      = (accounts.filter (fun fa => !exceptOk (upd fa.1 fa.2))).length := by
    induction accounts with
    | nil => rfl
    | cons a t ih =>
      cases hu : upd a.1 a.2 with
      | ok d =>
        simp only [batchErrors, List.filterMap_cons, List.filter_cons, hu, exceptOk,
          Bool.not_true]
        simpa [batchErrors] using ih
      | error e =>
        simp only [batchErrors, List.filterMap_cons, List.filter_cons, hu, exceptOk,
          Bool.not_false]
        simp only [if_true, List.length_cons]
        simpa [batchErrors] using ih
  have hlen : (batchErrors upd accounts).length ≤ accounts.length := by
    simpa [batchErrors] using List.length_filterMap_le _ accounts
  rw [update_process_fold]
  exact ⟨by simp [hK], by simp [hK], by simp; omega, by simp, by simp⟩

/-! ## `ManageTab.get_trial_usage` field derivations (manageTab.py:301-357)

The claim conditions on "all three remote responses obtained", so the three
JSON responses are inputs; only the fields the code reads are modelled. -/

/-- The `/api/auth/me` response: the `email` field, when present. -/
structure UserInfoResp where
  email : Option String
deriving Repr, DecidableEq

/-- The `/api/auth/stripe` response: `daysRemainingOnTrial`, when present. -/
structure TrialResp where
  daysRemainingOnTrial : Option Int
deriving Repr, DecidableEq

/-- The `gpt-4` object of the usage response. -/
structure Gpt4Usage where
  numRequestsTotal : Option Nat
  maxRequestUsage : Option Nat
deriving Repr, DecidableEq

/-- The `/api/usage` response: the `gpt-4` object, when present. -/
structure UsageResp where
  gpt4 : Option Gpt4Usage
deriving Repr, DecidableEq

theorem toList_asString (l : List Char) : l.asString.toList = l := rfl

theorem data_asString (l : List Char) : l.asString.data = l := rfl

/-- `email.split('@')[-1] if '@' in email else '未知'` (manageTab.py:337). -/
def emailDomain (email : String) : String :=
  if email.toList.contains '@' then
    ((splitCharList '@' email.toList).getLastD []).asString
  else "未知"

/-- The field derivations of `get_trial_usage` (manageTab.py:335-348): email
defaulting to the sentinel, domain from the part after `'@'`, days-remaining
as the string form of the trial field (sentinel when absent), quota as
`"<used> / <max>"` when `maxRequestUsage` is truthy and the sentinel
otherwise, with `used`/`max` defaulting to 0.  (`'未知'` is the code's
"unknown" sentinel string.) -/
def get_trial_usage_fields (u : UserInfoResp) (t : TrialResp) (g : UsageResp) :
    String × String × String × String :=
  let email := u.email.getD "未知"
  let domain := emailDomain email
  let days := match t.daysRemainingOnTrial with
    | some n => toString n
    | none => "未知"
  let gpt4 := g.gpt4.getD ⟨none, none⟩
  let used := gpt4.numRequestsTotal.getD 0
  let maxq := gpt4.maxRequestUsage.getD 0
  let quota := if maxq ≠ 0 then toString used ++ " / " ++ toString maxq else "未知"
  (domain, email, quota, days)

/-- **C7.**  On a successful refresh: domain is the substring of the returned
email after `'@'`; quota is `"<used> / <max>"` when the max-usage field is
truthy and the sentinel `'未知'` ("unknown") otherwise; days-remaining is the
string form of the trial-days field; and every missing response field falls
back to the sentinel instead of failing. -/
theorem get_trial_usage_spec :
    (∀ (u : UserInfoResp) (t : TrialResp) (g : UsageResp) (l d : List Char),
      u.email = some (l ++ '@' :: d).asString → '@' ∉ l → '@' ∉ d →
      (get_trial_usage_fields u t g).1 = d.asString)
    ∧ (∀ (u : UserInfoResp) (t : TrialResp) (g : UsageResp) (gu : Gpt4Usage) (m : Nat),
      g.gpt4 = some gu → gu.maxRequestUsage = some m → m ≠ 0 →
      (get_trial_usage_fields u t g).2.2.1
        = toString (gu.numRequestsTotal.getD 0) ++ " / " ++ toString m)
    ∧ (∀ (u : UserInfoResp) (t : TrialResp) (g : UsageResp),
      (g.gpt4.getD ⟨none, none⟩).maxRequestUsage.getD 0 = 0 →
      (get_trial_usage_fields u t g).2.2.1 = "未知")
    ∧ (∀ (u : UserInfoResp) (t : TrialResp) (g : UsageResp) (n : Int),
      t.daysRemainingOnTrial = some n →
      (get_trial_usage_fields u t g).2.2.2 = toString n)
    ∧ (∀ (u : UserInfoResp) (t : TrialResp) (g : UsageResp),
      t.daysRemainingOnTrial = none →
      (get_trial_usage_fields u t g).2.2.2 = "未知")
    ∧ (∀ (u : UserInfoResp) (t : TrialResp) (g : UsageResp),
      u.email = none →
      (get_trial_usage_fields u t g).2.1 = "未知"
        ∧ (get_trial_usage_fields u t g).1 = "未知") := by
  refine ⟨?_, ?_, ?_, ?_, ?_, ?_⟩
  · intro u t g l d he hl hd
    have hmem : ('@' : Char) ∈ l ++ '@' :: d := by simp
    have hsplit : splitCharList '@' (l ++ '@' :: d) = l :: splitCharList '@' d :=
      splitCharList_append_sep '@' l d hl
    simp [get_trial_usage_fields, emailDomain, he, toList_asString, data_asString,
      hmem, hsplit, splitCharList_no_sep '@' d hd]
  · intro u t g gu m hg hm hne
    simp [get_trial_usage_fields, hg, hm, hne]
  · intro u t g h
    simp [get_trial_usage_fields, h]
  · intro u t g n h
    simp [get_trial_usage_fields, h]
  · intro u t g h
    simp [get_trial_usage_fields, h]
  · intro u t g h
    refine ⟨by simp [get_trial_usage_fields, h], ?_⟩
    simp [get_trial_usage_fields, emailDomain, h]

/-- Witness for C7 at concrete responses. -/
theorem get_trial_usage_spec_witness :
    (get_trial_usage_fields ⟨some "a@example.com"⟩ ⟨some 5⟩
        ⟨some ⟨some 10, some 100⟩⟩).1 = "example.com"
    ∧ (get_trial_usage_fields ⟨some "a@example.com"⟩ ⟨some 5⟩
        ⟨some ⟨some 10, some 100⟩⟩).2.2.1 = "10 / 100"
    ∧ (get_trial_usage_fields ⟨some "a@example.com"⟩ ⟨some 5⟩
        ⟨some ⟨some 10, some 100⟩⟩).2.2.2 = "5"
    ∧ (get_trial_usage_fields ⟨none⟩ ⟨none⟩ ⟨none⟩).2.2.1 = "未知"
    ∧ (get_trial_usage_fields ⟨none⟩ ⟨none⟩ ⟨none⟩).2.2.2 = "未知"
    ∧ (get_trial_usage_fields ⟨none⟩ ⟨none⟩ ⟨none⟩).2.1 = "未知" := by
  refine ⟨?_, ?_, ?_, ?_, ?_, ?_⟩
  · exact (get_trial_usage_spec.1 ⟨some "a@example.com"⟩ ⟨some 5⟩
      ⟨some ⟨some 10, some 100⟩⟩ "a".toList "example.com".toList
      (by decide) (by decide) (by decide)).trans (by decide)
  · exact (get_trial_usage_spec.2.1 ⟨some "a@example.com"⟩ ⟨some 5⟩
      ⟨some ⟨some 10, some 100⟩⟩ ⟨some 10, some 100⟩ 100 rfl rfl
      (by decide)).trans (by decide)
  · exact (get_trial_usage_spec.2.2.2.1 ⟨some "a@example.com"⟩ ⟨some 5⟩
      ⟨some ⟨some 10, some 100⟩⟩ 5 rfl).trans (by decide)
  · exact get_trial_usage_spec.2.2.1 ⟨none⟩ ⟨none⟩ ⟨none⟩ rfl
  · exact get_trial_usage_spec.2.2.2.2.1 ⟨none⟩ ⟨none⟩ ⟨none⟩ rfl
  · exact (get_trial_usage_spec.2.2.2.2.2 ⟨none⟩ ⟨none⟩ ⟨none⟩ rfl).1

/-! ## Base64 (the `base64.b64decode` call of manageTab.py:368)

Standard base64: bytes are modelled as naturals below 256. -/

/-- The base64 alphabet character for a 6-bit value. -/
def b64CharOf (n : Nat) : Char :=
  if n < 26 then Char.ofNat ('A'.toNat + n)
  else if n < 52 then Char.ofNat ('a'.toNat + (n - 26))
  else if n < 62 then Char.ofNat ('0'.toNat + (n - 52))
  else if n = 62 then '+'
  else '/'

/-- The 6-bit value of a base64 alphabet character, `none` for characters
outside the alphabet. -/
def b64CharVal (c : Char) : Option Nat :=
  if 'A' ≤ c ∧ c ≤ 'Z' then some (c.toNat - 'A'.toNat)
  else if 'a' ≤ c ∧ c ≤ 'z' then some (c.toNat - 'a'.toNat + 26)
  else if '0' ≤ c ∧ c ≤ '9' then some (c.toNat - '0'.toNat + 52)
  else if c = '+' then some 62
  else if c = '/' then some 63
  else none

theorem b64CharVal_b64CharOf : ∀ n, n < 64 → b64CharVal (b64CharOf n) = some n := by
  decide

/-- Standard base64 encoding of a byte list, with `'='` padding. -/
def b64encode : List Nat → List Char
  | [] => []
  | [b1] => [b64CharOf (b1 / 4), b64CharOf (b1 % 4 * 16), '=', '=']
  | [b1, b2] =>
    [b64CharOf (b1 / 4), b64CharOf (b1 % 4 * 16 + b2 / 16), b64CharOf (b2 % 16 * 4), '=']
  | b1 :: b2 :: b3 :: rest =>
    b64CharOf (b1 / 4) :: b64CharOf (b1 % 4 * 16 + b2 / 16)
      :: b64CharOf (b2 % 16 * 4 + b3 / 64) :: b64CharOf (b3 % 64) :: b64encode rest

/-- Base64 decoding of an already-filtered character list, four characters a
group, the last group optionally padded; anything malformed yields `none`. -/
def b64decodeGroups : List Char → Option (List Nat)
  | [] => some []
  | c1 :: c2 :: c3 :: c4 :: rest =>
    match b64CharVal c1, b64CharVal c2 with
    | some v1, some v2 =>
      if c3 = '=' then
        if c4 = '=' ∧ rest = [] then some [v1 * 4 + v2 / 16] else none
      else
        match b64CharVal c3 with
        | some v3 =>
          if c4 = '=' then
            if rest = [] then some [v1 * 4 + v2 / 16, v2 % 16 * 16 + v3 / 4] else none
          else
            match b64CharVal c4, b64decodeGroups rest with
            | some v4, some tail =>
              some ((v1 * 4 + v2 / 16) :: (v2 % 16 * 16 + v3 / 4)
                :: (v3 % 4 * 64 + v4) :: tail)
            | _, _ => none
        | none => none
    | _, _ => none
  | _ => none

/-- `base64.b64decode` with the default `validate=False`: characters outside
the alphabet and `'='` are discarded, then the groups are decoded. -/
def pyB64decode (s : List Char) : Option (List Nat) :=
  b64decodeGroups (s.filter (fun c => (b64CharVal c).isSome || c == '='))

theorem b64CharOf_ne_eqsign : ∀ n, n < 64 → b64CharOf n ≠ '=' := by decide

theorem b64encode_mem (bs : List Nat) (h : ∀ b ∈ bs, b < 256) :
    ∀ c ∈ b64encode bs, (b64CharVal c).isSome = true ∨ c = '=' := by
  match bs with
  | [] => intro c hc; simp [b64encode] at hc
  | [b1] =>
    intro c hc
    have h1 : b1 < 256 := h b1 (by simp)
    simp [b64encode] at hc
    rcases hc with rfl | rfl | rfl
    · exact Or.inl (by rw [b64CharVal_b64CharOf _ (by omega)]; rfl)
    · exact Or.inl (by rw [b64CharVal_b64CharOf _ (by omega)]; rfl)
    · exact Or.inr rfl
  | [b1, b2] =>
    intro c hc
    have h1 : b1 < 256 := h b1 (by simp)
    have h2 : b2 < 256 := h b2 (by simp)
    simp [b64encode] at hc
    rcases hc with rfl | rfl | rfl | rfl
    · exact Or.inl (by rw [b64CharVal_b64CharOf _ (by omega)]; rfl)
    · exact Or.inl (by rw [b64CharVal_b64CharOf _ (by omega)]; rfl)
    · exact Or.inl (by rw [b64CharVal_b64CharOf _ (by omega)]; rfl)
    · exact Or.inr rfl
  | b1 :: b2 :: b3 :: rest =>
    intro c hc
    have h1 : b1 < 256 := h b1 (by simp)
    have h2 : b2 < 256 := h b2 (by simp)
    have h3 : b3 < 256 := h b3 (by simp)
    have ih := b64encode_mem rest (fun b hb => h b (by simp [hb]))
    simp only [b64encode, List.mem_cons] at hc
    rcases hc with rfl | rfl | rfl | rfl | hm
    · exact Or.inl (by rw [b64CharVal_b64CharOf _ (by omega)]; rfl)
    · exact Or.inl (by rw [b64CharVal_b64CharOf _ (by omega)]; rfl)
    · exact Or.inl (by rw [b64CharVal_b64CharOf _ (by omega)]; rfl)
    · exact Or.inl (by rw [b64CharVal_b64CharOf _ (by omega)]; rfl)
    · exact ih c hm

theorem b64encode_length_mod4 (bs : List Nat) : (b64encode bs).length % 4 = 0 := by
  match bs with
  | [] => simp [b64encode]
  | [b1] => simp [b64encode]
  | [b1, b2] => simp [b64encode]
  | b1 :: b2 :: b3 :: rest =>
    have ih := b64encode_length_mod4 rest
    simp only [b64encode, List.length_cons]
    omega

theorem b64decodeGroups_encode (bs : List Nat) (h : ∀ b ∈ bs, b < 256) :
    b64decodeGroups (b64encode bs) = some bs := by
  match bs with
  | [] => simp [b64encode, b64decodeGroups]
  | [b1] =>
    have h1 : b1 < 256 := h b1 (by simp)
    have e1 := b64CharVal_b64CharOf (b1 / 4) (by omega)
    have e2 := b64CharVal_b64CharOf (b1 % 4 * 16) (by omega)
    simp only [b64encode, b64decodeGroups, e1, e2, and_self, if_true]
    simp only [Option.some.injEq, List.cons.injEq, and_true]
    omega
  | [b1, b2] =>
    have h1 : b1 < 256 := h b1 (by simp)
    have h2 : b2 < 256 := h b2 (by simp)
    have e1 := b64CharVal_b64CharOf (b1 / 4) (by omega)
    have e2 := b64CharVal_b64CharOf (b1 % 4 * 16 + b2 / 16) (by omega)
    have e3 := b64CharVal_b64CharOf (b2 % 16 * 4) (by omega)
    have hn3 := b64CharOf_ne_eqsign (b2 % 16 * 4) (by omega)
    simp only [b64encode, b64decodeGroups, e1, e2, e3, hn3, if_false, if_true]
    simp only [Option.some.injEq, List.cons.injEq, and_true]
    omega
  | b1 :: b2 :: b3 :: rest =>
    have h1 : b1 < 256 := h b1 (by simp)
    have h2 : b2 < 256 := h b2 (by simp)
    have h3 : b3 < 256 := h b3 (by simp)
    have ih := b64decodeGroups_encode rest (fun b hb => h b (by simp [hb]))
    have e1 := b64CharVal_b64CharOf (b1 / 4) (by omega)
    have e2 := b64CharVal_b64CharOf (b1 % 4 * 16 + b2 / 16) (by omega)
    have e3 := b64CharVal_b64CharOf (b2 % 16 * 4 + b3 / 64) (by omega)
    have e4 := b64CharVal_b64CharOf (b3 % 64) (by omega)
    have hn3 := b64CharOf_ne_eqsign (b2 % 16 * 4 + b3 / 64) (by omega)
    have hn4 := b64CharOf_ne_eqsign (b3 % 64) (by omega)
    simp only [b64encode, b64decodeGroups, e1, e2, e3, e4, hn3, hn4, if_false, ih]
    simp only [Option.some.injEq, List.cons.injEq, and_true, true_and,
      eq_self_iff_true]
    omega

/-- On encoder output, Python's decode (filter, then group decode) inverts
the encoder. -/
theorem pyB64decode_encode (bs : List Nat) (h : ∀ b ∈ bs, b < 256) :
    pyB64decode (b64encode bs) = some bs := by
  have hfilter : (b64encode bs).filter (fun c => (b64CharVal c).isSome || c == '=')
      = b64encode bs := by
    rw [List.filter_eq_self]
    intro c hc
    rcases b64encode_mem bs h c hc with hv | hv <;> simp [hv]
  rw [pyB64decode, hfilter]
  exact b64decodeGroups_encode bs h

/-! ## A flat JSON object reader (the `json.loads` call of manageTab.py:369)

`json.loads` is modelled on the sublanguage the claim concerns: an object
whose members are string keys and string values without escape sequences —
the shape of the JWT payload fields read here. -/

/-- Read the body of a JSON string up to its closing quote; returns the
content and the remaining input. -/
def parseJsonString : List Char → Option (List Char × List Char)
  | [] => none
  | c :: rest =>
    if c = '"' then some ([], rest)
    else
      match parseJsonString rest with
      | some (s, r) => some (c :: s, r)
      | none => none

/-- Read `"key":"value"` members separated by `,` up to the closing brace;
`fuel` bounds the recursion by the input length. -/
def parseMembers : Nat → List Char → Option (List (String × String) × List Char)
  | 0, _ => none
  | fuel + 1, cs =>
    match cs with
    | '"' :: r0 =>
      match parseJsonString r0 with
      | some (k, r1) =>
        match r1 with
        | ':' :: '"' :: r2 =>
          match parseJsonString r2 with
          | some (v, r3) =>
            match r3 with
            | ',' :: r4 =>
              match parseMembers fuel r4 with
              | some (ms, r5) => some ((k.asString, v.asString) :: ms, r5)
              | none => none
            | '\x7d' :: r4 => some ([(k.asString, v.asString)], r4)
            | _ => none
          | none => none
        | _ => none
      | none => none
    | _ => none

/-- Parse a whole flat JSON object; duplicate keys are kept in order, the
caller's dict lookup resolving them last-binding-wins as Python does. -/
def jsonParse (cs : List Char) : Option (List (String × String)) :=
  match cs with
  | '\x7b' :: '\x7d' :: rest => if rest = [] then some [] else none
  | '\x7b' :: rest =>
    match parseMembers rest.length rest with
    | some (ms, r) => if r = [] then some ms else none
    | none => none
  | _ => none

/-- The serialized form of one member, `"key":"value"`. -/
def renderPairChars (k v : String) : List Char :=
  ['"'] ++ (k.data ++ (['"', ':', '"'] ++ (v.data ++ ['"'])))

/-- The serialized members, comma-separated. -/
def renderMembersChars : List (String × String) → List Char
  | [] => []
  | [kv] => renderPairChars kv.1 kv.2
  | kv :: kv2 :: t => renderPairChars kv.1 kv.2 ++ (',' :: renderMembersChars (kv2 :: t))

/-- The serialized object, `\x7b...members...\x7d`. -/
def renderPayloadChars (kvs : List (String × String)) : List Char :=
  '\x7b' :: (renderMembersChars kvs ++ ['\x7d'])

theorem asString_data (s : String) : s.data.asString = s := by
  cases s; rfl

theorem parseJsonString_append (s rest : List Char) (h : '"' ∉ s) :
    parseJsonString (s ++ '"' :: rest) = some (s, rest) := by
  induction s with
  | nil => simp [parseJsonString]
  | cons c t ih =>
    have hc : c ≠ '"' := fun e => h (e ▸ List.mem_cons_self c t)
    have ht : '"' ∉ t := fun m => h (List.mem_cons_of_mem c m)
    simp [parseJsonString, hc, ih ht]

theorem parseMembers_render (kvs : List (String × String)) (tail : List Char)
    (hq : ∀ kv ∈ kvs, '"' ∉ kv.1.data ∧ '"' ∉ kv.2.data) :
    ∀ fuel, kvs.length ≤ fuel → kvs ≠ [] →
      parseMembers fuel (renderMembersChars kvs ++ '\x7d' :: tail) = some (kvs, tail) := by
  induction kvs with
  | nil => intro fuel _ hne; cases hne rfl
  | cons kv t ih =>
    intro fuel hfuel _
    obtain ⟨hk, hv⟩ := hq kv (List.mem_cons_self _ _)
    obtain ⟨fuel, rfl⟩ : ∃ f, fuel = f + 1 := by
      cases fuel with
      | zero => simp at hfuel
      | succ n => exact ⟨n, rfl⟩
    cases t with
    | nil =>
      simp only [renderMembersChars, renderPairChars, List.append_assoc,
        List.singleton_append, List.cons_append, List.nil_append]
      simp only [parseMembers, parseJsonString_append kv.1.data _ hk,
        parseJsonString_append kv.2.data _ hv, asString_data]
    | cons kv2 t2 =>
      have hfuel2 : (kv2 :: t2).length ≤ fuel := by
        simp only [List.length_cons] at hfuel ⊢
        omega
      have ihr := ih (fun x hx => hq x (List.mem_cons_of_mem kv hx)) fuel hfuel2
        (by simp)
      simp only [renderMembersChars, renderPairChars, List.append_assoc,
        List.singleton_append, List.cons_append, List.nil_append] at ihr ⊢
      simp only [parseMembers, parseJsonString_append kv.1.data _ hk,
        parseJsonString_append kv.2.data _ hv, asString_data, ihr]

theorem length_le_renderMembersChars : ∀ kvs : List (String × String),
    kvs.length ≤ (renderMembersChars kvs).length
  | [] => by simp [renderMembersChars]
  | [kv] => by simp [renderMembersChars, renderPairChars]
  | kv :: kv2 :: t => by
    have ih := length_le_renderMembersChars (kv2 :: t)
    simp only [renderMembersChars, renderPairChars, List.length_append,
      List.length_cons, List.length_singleton] at ih ⊢
    omega

theorem renderMembersChars_cons_head (kv : String × String)
    (t : List (String × String)) :
    ∃ s, renderMembersChars (kv :: t) = '"' :: s := by
  cases t with
  | nil =>
    exact ⟨kv.1.data ++ (['"', ':', '"'] ++ (kv.2.data ++ ['"'])),
      by simp [renderMembersChars, renderPairChars]⟩
  | cons kv2 t2 =>
    exact ⟨kv.1.data ++ (['"', ':', '"'] ++ (kv.2.data ++ ['"']))
        ++ (',' :: renderMembersChars (kv2 :: t2)),
      by simp [renderMembersChars, renderPairChars]⟩

theorem jsonParse_brace_quote (r : List Char) :
    jsonParse ('\x7b' :: '"' :: r) =
      match parseMembers ('"' :: r).length ('"' :: r) with
      | some (ms, rr) => if rr = [] then some ms else none
      | none => none := rfl

theorem jsonParse_render (kvs : List (String × String))
    (hq : ∀ kv ∈ kvs, '"' ∉ kv.1.data ∧ '"' ∉ kv.2.data) :
    jsonParse (renderPayloadChars kvs) = some kvs := by
  cases kvs with
  | nil => simp [renderPayloadChars, renderMembersChars, jsonParse]
  | cons kv t =>
    obtain ⟨s, hs⟩ := renderMembersChars_cons_head kv t
    have hlen : (kv :: t).length ≤ (renderMembersChars (kv :: t) ++ ['\x7d']).length := by
      have := length_le_renderMembersChars (kv :: t)
      simp only [List.length_append, List.length_singleton]
      omega
    have hpm := parseMembers_render (kv :: t) [] hq
      ((renderMembersChars (kv :: t) ++ ['\x7d']).length) hlen (by simp)
    rw [hs] at hpm
    simp only [List.cons_append, List.length_cons] at hpm
    simp only [renderPayloadChars]
    rw [hs]
    simp only [List.cons_append]
    rw [jsonParse_brace_quote]
    simp only [List.length_cons, hpm, if_true]

/-! ## Bytes and text (between `base64.b64decode` and `json.loads`)

`json.loads` UTF-8-decodes the byte payload; on code points below 128 UTF-8
is the identity on byte values, and the hypotheses restrict to that range. -/

/-- The UTF-8 bytes of ASCII text. -/
def asciiBytes (cs : List Char) : List Nat := cs.map Char.toNat

/-- ASCII bytes decoded back to text. -/
def bytesAscii (bs : List Nat) : List Char := bs.map Char.ofNat

theorem bytesAscii_asciiBytes (cs : List Char) : bytesAscii (asciiBytes cs) = cs := by
  simp [bytesAscii, asciiBytes, List.map_map, Function.comp_def, Char.ofNat_toNat]

/-- Printable ASCII text without the characters that JSON string syntax
escapes: what a JWT payload's field names and values are made of. -/
def plainStr (s : String) : Prop :=
  ∀ c ∈ s.data, 32 ≤ c.toNat ∧ c.toNat < 128 ∧ c ≠ '"' ∧ c ≠ '\\'

instance (s : String) : Decidable (plainStr s) := by
  unfold plainStr; infer_instance

theorem renderPairChars_lt (k v : String) (hk : plainStr k) (hv : plainStr v) :
    ∀ c ∈ renderPairChars k v, c.toNat < 256 := by
  have hk' : ∀ c ∈ k.data, c.toNat < 256 := fun c hc => by
    have := (hk c hc).2.1; omega
  have hv' : ∀ c ∈ v.data, c.toNat < 256 := fun c hc => by
    have := (hv c hc).2.1; omega
  intro c hc
  simp only [renderPairChars, List.mem_append] at hc
  rcases hc with hc | hc | hc | hc | hc
  · simp at hc; subst hc; decide
  · exact hk' c hc
  · simp at hc; rcases hc with rfl | rfl | rfl <;> decide
  · exact hv' c hc
  · simp at hc; subst hc; decide

theorem renderMembersChars_lt : ∀ kvs : List (String × String),
    (∀ kv ∈ kvs, plainStr kv.1 ∧ plainStr kv.2) →
    ∀ c ∈ renderMembersChars kvs, c.toNat < 256
  | [], _ => by simp [renderMembersChars]
  | [kv], h => by
    obtain ⟨hk, hv⟩ := h kv (by simp)
    simpa [renderMembersChars] using renderPairChars_lt kv.1 kv.2 hk hv
  | kv :: kv2 :: t, h => by
    obtain ⟨hk, hv⟩ := h kv (by simp)
    have ih := renderMembersChars_lt (kv2 :: t)
      (fun x hx => h x (List.mem_cons_of_mem kv hx))
    intro c hc
    simp only [renderMembersChars, List.mem_append, List.mem_cons] at hc
    rcases hc with hc | rfl | hc
    · exact renderPairChars_lt kv.1 kv.2 hk hv c hc
    · decide
    · exact ih c hc

theorem renderPayloadChars_lt (kvs : List (String × String))
    (h : ∀ kv ∈ kvs, plainStr kv.1 ∧ plainStr kv.2) :
    ∀ c ∈ renderPayloadChars kvs, c.toNat < 256 := by
  intro c hc
  simp only [renderPayloadChars, List.mem_cons, List.mem_append,
    List.mem_singleton] at hc
  rcases hc with rfl | hc | hc
  · decide
  · exact renderMembersChars_lt kvs h c hc
  · rcases hc with rfl | hc
    · decide
    · simp at hc

/-! ## `ManageTab.extract_user_id_from_jwt` (manageTab.py:359-378) -/

/-- Boolean list-prefix test. -/
def listIsPrefix : List Char → List Char → Bool
  | [], _ => true
  | _ :: _, [] => false
  | a :: l, b :: r => a == b && listIsPrefix l r

/-- Modelled from the spec: `Utils.extract_token` lives in `utils.py`, which
is not under src/; per the spec the derivation operates on "the token's
middle segment" of the session token's JWT part, so `extract_token` yields
the JWT part: the value following the well-known cookie name when the name
is present, the string itself otherwise. -/
def extract_token (cookies tokenName : String) : String :=
  if listIsPrefix (tokenName ++ "=").data cookies.data
  then (cookies.data.drop (tokenName ++ "=").data.length).asString
  else cookies

/-- `payload += '=' * (-len(payload) % 4)` (manageTab.py:367): pad the base64
segment to a multiple of four characters. -/
def padB64 (p : List Char) : List Char :=
  p ++ List.replicate ((4 - p.length % 4) % 4) '='

theorem padB64_of_mod4 (p : List Char) (h : p.length % 4 = 0) : padB64 p = p := by
  simp [padB64, h]

/-- `ManageTab.extract_user_id_from_jwt` (manageTab.py:359-378): take the JWT
part of the session token, split it on `'.'`, reject anything but exactly
three segments (`"无效的 JWT 格式"`), base64-decode the padded middle segment,
JSON-parse the decoded bytes, read the `sub` field and reject a missing or
falsy (empty) value (`"JWT 中未找到用户 ID"`).  Raised errors are the `.error`
values; the outer handler re-raises them wrapped, which does not change which
inputs fail. -/
def extract_user_id_from_jwt (cookies : String) : Except String String :=
  let jwt := extract_token cookies "WorkosCursorSessionToken"
  let parts := splitCharList '.' jwt.data
  if parts.length ≠ 3 then .error "无效的 JWT 格式"
  else
    match pyB64decode (padB64 (parts.getD 1 [])) with
    | none => .error "binascii.Error"
    | some bytes =>
      match jsonParse (bytesAscii bytes) with
      | none => .error "json.JSONDecodeError"
      | some payload =>
        match dictGet payload "sub" with
        | none => .error "JWT 中未找到用户 ID"
        | some userId => if userId = "" then .error "JWT 中未找到用户 ID" else .ok userId

theorem extract_user_id_pipeline (cookies : String) (hdr sig : List Char)
    (obj : List (String × String))
    (hdata : (extract_token cookies "WorkosCursorSessionToken").data
      = hdr ++ ('.' :: (b64encode (asciiBytes (renderPayloadChars obj))
          ++ ('.' :: sig))))
    (hhdr : '.' ∉ hdr) (hsig : '.' ∉ sig)
    (hobj : ∀ kv ∈ obj, plainStr kv.1 ∧ plainStr kv.2) :
    extract_user_id_from_jwt cookies
      = match dictGet obj "sub" with
        | none => .error "JWT 中未找到用户 ID"
        | some userId =>
          if userId = "" then .error "JWT 中未找到用户 ID" else .ok userId := by
  have hbytes : ∀ b ∈ asciiBytes (renderPayloadChars obj), b < 256 := by
    intro b hb
    simp only [asciiBytes, List.mem_map] at hb
    obtain ⟨c, hc, rfl⟩ := hb
    exact renderPayloadChars_lt obj hobj c hc
  have hmiddot : '.' ∉ b64encode (asciiBytes (renderPayloadChars obj)) := by
    intro hin
    rcases b64encode_mem _ hbytes '.' hin with hvv | hvv
    · exact absurd hvv (by decide)
    · exact absurd hvv (by decide)
  have hsplit : splitCharList '.'
      (extract_token cookies "WorkosCursorSessionToken").data
      = [hdr, b64encode (asciiBytes (renderPayloadChars obj)), sig] := by
    rw [hdata, splitCharList_append_sep _ _ _ hhdr,
      splitCharList_append_sep _ _ _ hmiddot, splitCharList_no_sep _ _ hsig]
  have hq : ∀ kv ∈ obj, '"' ∉ kv.1.data ∧ '"' ∉ kv.2.data := by
    intro kv hkv
    obtain ⟨h1, h2⟩ := hobj kv hkv
    exact ⟨fun hm => (h1 _ hm).2.2.1 rfl, fun hm => (h2 _ hm).2.2.1 rfl⟩
  simp [extract_user_id_from_jwt, hsplit,
    padB64_of_mod4 _ (b64encode_length_mod4 _), pyB64decode_encode _ hbytes,
    bytesAscii_asciiBytes, jsonParse_render obj hq]

/-- **C4.**  Splitting the session token's JWT part on `'.'`: with one or two
segments the derivation fails with the malformed-token error; with exactly
three segments whose middle segment base64-encodes a JSON payload, it returns
the payload's `sub` field when that field is present and non-empty, and fails
when the payload lacks the field. -/
theorem extract_user_id_from_jwt_spec :
    (∀ cookies : String,
      (splitCharList '.' (extract_token cookies "WorkosCursorSessionToken").data).length = 1
        ∨ (splitCharList '.' (extract_token cookies "WorkosCursorSessionToken").data).length = 2 →
      ∃ e, extract_user_id_from_jwt cookies = .error e)
    ∧ (∀ (cookies : String) (hdr sig : List Char) (obj : List (String × String))
        (s : String),
      (extract_token cookies "WorkosCursorSessionToken").data
        = hdr ++ ('.' :: (b64encode (asciiBytes (renderPayloadChars obj))
            ++ ('.' :: sig))) →
      '.' ∉ hdr → '.' ∉ sig →
      (∀ kv ∈ obj, plainStr kv.1 ∧ plainStr kv.2) →
      dictGet obj "sub" = some s → s ≠ "" →
      extract_user_id_from_jwt cookies = .ok s)
    ∧ (∀ (cookies : String) (hdr sig : List Char) (obj : List (String × String)),
      (extract_token cookies "WorkosCursorSessionToken").data
        = hdr ++ ('.' :: (b64encode (asciiBytes (renderPayloadChars obj))
            ++ ('.' :: sig))) →
      '.' ∉ hdr → '.' ∉ sig →
      (∀ kv ∈ obj, plainStr kv.1 ∧ plainStr kv.2) →
      dictGet obj "sub" = none →
      ∃ e, extract_user_id_from_jwt cookies = .error e) := by
  refine ⟨?_, ?_, ?_⟩
  · intro cookies h
    refine ⟨"无效的 JWT 格式", ?_⟩
    rcases h with h | h <;> simp [extract_user_id_from_jwt, h]
  · intro cookies hdr sig obj s hdata hhdr hsig hobj hsub hne
    rw [extract_user_id_pipeline cookies hdr sig obj hdata hhdr hsig hobj]
    simp [hsub, hne]
  · intro cookies hdr sig obj hdata hhdr hsig hobj hsub
    refine ⟨"JWT 中未找到用户 ID", ?_⟩
    rw [extract_user_id_pipeline cookies hdr sig obj hdata hhdr hsig hobj]
    simp [hsub]

/-- Witness for C4: a concrete three-segment token whose payload is
`\x7b"sub":"user123"\x7d` yields `user123`, and a two-segment token fails. -/
theorem extract_user_id_from_jwt_witness :
    extract_user_id_from_jwt
        ("hd".data ++ ('.' :: (b64encode (asciiBytes
          (renderPayloadChars [("sub", "user123")])) ++ ('.' :: "sg".data)))).asString
      = .ok "user123"
    ∧ ∃ e, extract_user_id_from_jwt "abc.def" = .error e :=
  ⟨extract_user_id_from_jwt_spec.2.1 _ "hd".data "sg".data [("sub", "user123")]
      "user123" (by decide) (by decide) (by decide) (by decide) (by decide)
      (by decide),
   extract_user_id_from_jwt_spec.1 "abc.def" (Or.inr (by decide))⟩

end CursorRegister
